import Mathlib

/-!
# Verification of the hand-detector decoding pipeline (`src/handtrack/src/hand.ts`)

A shallow embedding of the `HandDetector` class: anchor-relative box and
landmark decoding, score filtering, non-maximum suppression, selection and
rescaling, plus a small tensor-lifetime model for the disposal behaviour of
`getSingleBoundingBox`.  Numeric values are modelled as real numbers.
-/

open Classical

noncomputable section

/-- An anchor: a fixed reference point in normalized coordinates
(`ANCHORS` entries `{x_center, y_center}` in the constructor). -/
structure Anchor where
  x_center : ℝ
  y_center : ℝ

/-- A decoded box in input-resolution coordinates: the four columns of the
tensor produced by `normalizeBoxes` via `tf.concat2d` are
`[startX, startY, endX, endY]`. -/
structure Box where
  startX : ℝ
  startY : ℝ
  endX : ℝ
  endY : ℝ

instance : Inhabited Box := ⟨⟨0, 0, 0, 0⟩⟩

/-- The detector configuration fixed at construction: `width`, `height`,
`iouThreshold`, `scoreThreshold` and the anchor list.  The tensors
`inputSizeTensor = [width, height]` and `doubleInputSizeTensor =
[2*width, 2*height]` are derived from `width`/`height` below. -/
structure HandDetector where
  width : ℝ
  height : ℝ
  iouThreshold : ℝ
  scoreThreshold : ℝ
  anchors : List Anchor

/-- The per-anchor confidence: `tf.sigmoid` applied to column 0. -/
def sigmoid (x : ℝ) : ℝ := 1 / (1 + Real.exp (-x))

/-- One row of `normalizeBoxes`: `boxOffsets = raw[0:2]`, `boxSizes = raw[2:4]`
(of the already-sliced `rawBoxes`, i.e. prediction columns 1..4);
`boxCenterPoints = boxOffsets / inputSize + anchor`;
`halfBoxSizes = boxSizes / doubleInputSize`;
`startPoints = centers - halves`, `endPoints = centers + halves`,
both multiplied by `inputSize` in the final `concat2d`. -/
def normalizeBox (d : HandDetector) (a : Anchor) (raw : ℝ × ℝ × ℝ × ℝ) : Box :=
  let centerX := raw.1 / d.width + a.x_center
  let centerY := raw.2.1 / d.height + a.y_center
  let halfW := raw.2.2.1 / (2 * d.width)
  let halfH := raw.2.2.2 / (2 * d.height)
  ⟨(centerX - halfW) * d.width, (centerY - halfH) * d.height,
   (centerX + halfW) * d.width, (centerY + halfH) * d.height⟩

/-- `HandDetector.normalizeBoxes`: decode every raw box row against the anchor
at the same row index (tensor broadcasting pairs row `i` of `boxes` with row
`i` of `this.anchors`). -/
def normalizeBoxes (d : HandDetector) (rawBoxes : List (ℝ × ℝ × ℝ × ℝ)) : List Box :=
  List.zipWith (normalizeBox d) d.anchors rawBoxes

/-- One landmark point of `_decode_landmarks`:
`(raw / inputSize + anchor) * inputSize`, component-wise. -/
def decodeLandmark (d : HandDetector) (a : Anchor) (l : ℝ × ℝ) : ℝ × ℝ :=
  ((l.1 / d.width + a.x_center) * d.width,
   (l.2 / d.height + a.y_center) * d.height)

/-- `HandDetector._decode_landmarks`: the raw landmark tensor is reshaped to
`[-1, 7, 2]` (seven `(x, y)` points per row), each point is decoded against
the anchor of its row (`this.anchors.reshape([-1, 1, 2])` broadcasts the
row's anchor over its seven points). -/
def _decode_landmarks (d : HandDetector) (raw_landmarks : List (List (ℝ × ℝ))) :
    List (List (ℝ × ℝ)) :=
  List.zipWith (fun a pts => pts.map (decodeLandmark d a)) d.anchors raw_landmarks

/-- `tf.slice(prediction, [0, 1], [-1, 4])`: columns 1..4 of each row are the
raw box regression values. -/
def sliceBoxes (prediction : List (List ℝ)) : List (ℝ × ℝ × ℝ × ℝ) :=
  prediction.map fun r => (r.getD 1 0, r.getD 2 0, r.getD 3 0, r.getD 4 0)

/-- `tf.slice(prediction, [0, 5], [-1, 14]).reshape([-1, 7, 2])`: columns
5..18 of each row, grouped as seven `(x, y)` landmark points. -/
def sliceLandmarks (prediction : List (List ℝ)) : List (List (ℝ × ℝ)) :=
  prediction.map fun r =>
    (List.range 7).map fun j => (r.getD (5 + 2 * j) 0, r.getD (6 + 2 * j) 0)

/-- `tf.sigmoid(tf.slice(prediction, [0, 0], [-1, 1])).squeeze()`: the
per-row confidence scores. -/
def predictionScores (prediction : List (List ℝ)) : List ℝ :=
  prediction.map fun r => sigmoid (r.getD 0 0)

/-- Area of a box, `(endX - startX) * (endY - startY)`. -/
def boxArea (b : Box) : ℝ := (b.endX - b.startX) * (b.endY - b.startY)

/-- Modelled from the spec: the IoU (intersection over union) overlap ratio
used by non-maximum suppression (the implementation lives in the external
`tf.image.nonMaxSuppression`, not in this source tree): the area of the
intersection of the two boxes divided by the area of their union. -/
def iou (a b : Box) : ℝ :=
  let interW := max (min a.endX b.endX - max a.startX b.startX) 0
  let interH := max (min a.endY b.endY - max a.startY b.startY) 0
  let inter := interW * interH
  inter / (boxArea a + boxArea b - inter)

/-- A suppression candidate: a row index with its decoded box and score. -/
structure Cand where
  idx : ℕ
  box : Box
  score : ℝ

/-- Pair every row index with its decoded box and score. -/
def buildCandidates (boxes : List Box) (scores : List ℝ) : List Cand :=
  (List.range (min boxes.length scores.length)).map fun i =>
    ⟨i, boxes.getD i default, scores.getD i 0⟩

/-- Modelled from the spec: candidates below the score threshold are
discarded before consideration. -/
def keepAbove (scoreThreshold : ℝ) : List Cand → List Cand
  | [] => []
  | c :: rest =>
      if scoreThreshold ≤ c.score then c :: keepAbove scoreThreshold rest
      else keepAbove scoreThreshold rest

/-- Modelled from the spec: candidates are sorted by score descending. -/
def sortByScoreDesc (l : List Cand) : List Cand :=
  l.insertionSort fun c c' => c'.score ≤ c.score

/-- Modelled from the spec: the greedy acceptance loop — accept the next
highest-scoring candidate whose IoU with every previously accepted candidate
is below the threshold, stopping once `maxOutputSize` boxes are accepted. -/
def nmsAccept (iouThreshold : ℝ) (maxOutputSize : ℕ) :
    List Cand → List Cand → List Cand
  | acc, [] => acc
  | acc, c :: rest =>
      if maxOutputSize ≤ acc.length then acc
      else if ∀ b ∈ acc, iou c.box b.box < iouThreshold then
        nmsAccept iouThreshold maxOutputSize (acc ++ [c]) rest
      else nmsAccept iouThreshold maxOutputSize acc rest

/-- Modelled from the spec: `tf.image.nonMaxSuppression(boxes, scores,
maxOutputSize, iouThreshold, scoreThreshold)` (external to this source tree) —
discard candidates below the score threshold, sort by score descending,
greedily accept non-overlapping candidates, and return the accepted row
indices. -/
def nonMaxSuppression (boxes : List Box) (scores : List ℝ)
    (maxOutputSize : ℕ) (iouThreshold scoreThreshold : ℝ) : List ℕ :=
  (nmsAccept iouThreshold maxOutputSize []
      (sortByScoreDesc (keepAbove scoreThreshold (buildCandidates boxes scores)))).map
    Cand.idx

/-- `HandDetector._getBoundingBox`, from the raw prediction tensor on (the
resize/normalization of the input and `model.predict` are external): compute
scores and decoded boxes, run non-maximum suppression asking for one box,
return `none` when no index survives, otherwise the decoded box and decoded
landmark row at the surviving index. -/
def _getBoundingBox (d : HandDetector) (prediction : List (List ℝ)) :
    Option (Box × List (ℝ × ℝ)) :=
  let scores := predictionScores prediction
  let boxes := normalizeBoxes d (sliceBoxes prediction)
  let box_indices :=
    nonMaxSuppression boxes scores 1 d.iouThreshold d.scoreThreshold
  match box_indices with
  | [] => none
  | box_index :: _ =>
      let result_box := boxes.getD box_index default
      let landmarks := _decode_landmarks d (sliceLandmarks prediction)
      some (result_box, landmarks.getD box_index [])

/-- The detection record: `{startPoint, endPoint, landmarks}`. -/
structure DetectionResult where
  startPoint : ℝ × ℝ
  endPoint : ℝ × ℝ
  landmarks : List (ℝ × ℝ)

/-- Modelled from the spec: `scaleBoxCoordinates` (imported from `./box`,
which is not part of this source tree) multiplies the box and landmark
coordinates component-wise by the per-axis factors. -/
def scaleBoxCoordinates (r : DetectionResult) (factors : ℝ × ℝ) : DetectionResult :=
  ⟨(r.startPoint.1 * factors.1, r.startPoint.2 * factors.2),
   (r.endPoint.1 * factors.1, r.endPoint.2 * factors.2),
   r.landmarks.map fun p => (p.1 * factors.1, p.2 * factors.2)⟩

/-- `HandDetector.getSingleBoundingBox`, from the raw prediction tensor on:
when `_getBoundingBox` found nothing, return `none`; otherwise rescale the
selected box and landmarks by `(original_w / width, original_h / height)`. -/
def getSingleBoundingBox (d : HandDetector) (original_w original_h : ℝ)
    (prediction : List (List ℝ)) : Option DetectionResult :=
  match _getBoundingBox d prediction with
  | none => none
  | some (box, landmarks) =>
      let factors : ℝ × ℝ := (original_w / d.width, original_h / d.height)
      some (scaleBoxCoordinates
        ⟨(box.startX, box.startY), (box.endX, box.endY), landmarks⟩ factors)

/-- `getSingleBoundingBox` as a state-passing method call on the detector:
the method body contains no assignment to any field, so the detector state
it returns is the one it received. -/
def getSingleBoundingBoxCall (d : HandDetector) (original_w original_h : ℝ)
    (prediction : List (List ℝ)) : Option DetectionResult × HandDetector :=
  (getSingleBoundingBox d original_w original_h prediction, d)

/-- A concrete one-anchor detector (input size 128×128, IoU threshold 0.3,
score threshold 0.25) used to exercise the pipeline. -/
def dEx : HandDetector := ⟨128, 128, 3/10, 1/4, [⟨0, 0⟩]⟩

/-- A concrete raw prediction for `dEx`: raw score 0, box regression
`(15, 15, 10, 10)`, all landmark regressions zero — its decoded box is
`(10, 10)`–`(20, 20)`. -/
def predEx : List (List ℝ) := [[0, 15, 15, 10, 10] ++ List.replicate 14 0]

/-- A concrete one-anchor detector whose score threshold 0.75 rejects a raw
score of 0 (`sigmoid 0 = 1/2`). -/
def dEx3 : HandDetector := ⟨1, 1, 1/2, 3/4, [⟨0, 0⟩]⟩

/-- A concrete all-zero raw prediction row. -/
def predEx3 : List (List ℝ) := [List.replicate 19 0]

/-! ## Tensor-lifetime model

TensorFlow.js tensors are explicit resources: every op allocates, `dispose`
frees, and `tf.tidy(body)` frees every tensor allocated inside `body` except
the ones `body` returns.  We model the allocation/disposal structure of
`getSingleBoundingBox` over a state of live tensor ids, with one fresh id per
`tf` op in source order, to check the disposal behaviour of each exit path. -/

/-- Engine state: the next fresh tensor id and the ids of live tensors. -/
structure TfState where
  next : ℕ
  live : List ℕ

/-- Allocate one tensor, returning its id. -/
def tfAlloc (s : TfState) : ℕ × TfState :=
  (s.next, ⟨s.next + 1, s.live ++ [s.next]⟩)

/-- Allocate `n` intermediate tensors whose ids are not used afterwards. -/
def tfAllocMany (n : ℕ) (s : TfState) : TfState :=
  ⟨s.next + n, s.live ++ List.range' s.next n⟩

/-- `tensor.dispose()`. -/
def tfDispose (t : ℕ) (s : TfState) : TfState :=
  ⟨s.next, s.live.erase t⟩

/-- End of a `tf.tidy` scope entered at state `sIn` and left at state `sOut`:
every tensor allocated inside the scope is freed except the `kept` ones. -/
def tfTidyEnd (sIn : TfState) (kept : List ℕ) (sOut : TfState) : TfState :=
  ⟨sOut.next, sOut.live.filter fun t => sIn.live.contains t || kept.contains t⟩

/-- Allocations and disposals of `_getBoundingBox` (whole body inside
`tf.tidy`): the normalization of `img`, `prediction`, `scores`, `rawBoxes`,
the decoded `boxes` and the suppression indices are intermediates; when an
index survives (`detects`), `result_box`, the landmark intermediates and
`result_landmarks` are also created and the two results are returned out of
the tidy scope. -/
def _getBoundingBoxT (detects : Bool) (s : TfState) : Option (ℕ × ℕ) × TfState :=
  let s1 := tfAllocMany 15 s
  if detects then
    let (result_box, s2) := tfAlloc s1
    let s3 := tfAllocMany 4 s2
    let (result_landmarks, s4) := tfAlloc s3
    (some (result_box, result_landmarks),
      tfTidyEnd s [result_box, result_landmarks] s4)
  else
    (none, tfTidyEnd s [] s1)

/-- Allocations and disposals of `getSingleBoundingBox`: the resized image is
built inside its own `tf.tidy` (the `resizeBilinear` intermediate is freed,
the `div` result `image` is kept), then `_getBoundingBox` runs; on the
no-detection path the method returns `null` at once, and only on the
detection path does it dispose `image` and the two result tensors. -/
def getSingleBoundingBoxT (detects : Bool) (s : TfState) : Bool × TfState :=
  let (_resized, sA) := tfAlloc s
  let (image, sB) := tfAlloc sA
  let s1 := tfTidyEnd s [image] sB
  match _getBoundingBoxT detects s1 with
  | (none, s2) => (false, s2)
  | (some (result_box, result_landmarks), s2) =>
      let s3 := tfDispose image s2
      let s4 := tfDispose result_box s3
      let s5 := tfDispose result_landmarks s4
      (true, s5)

end

/-- Row `i` of the decoded box tensor, written out from the definitions. -/
lemma normalizeBoxes_getD_eq (d : HandDetector) (prediction : List (List ℝ))
    (i : ℕ) (hi : i < prediction.length) (ha : i < d.anchors.length) :
    (normalizeBoxes d (sliceBoxes prediction)).getD i default =
      let r := prediction.getD i []
      let a := d.anchors.getD i ⟨0, 0⟩
      let centerX := r.getD 1 0 / d.width + a.x_center
      let centerY := r.getD 2 0 / d.height + a.y_center
      let halfW := r.getD 3 0 / (2 * d.width)
      let halfH := r.getD 4 0 / (2 * d.height)
      Box.mk ((centerX - halfW) * d.width) ((centerY - halfH) * d.height)
        ((centerX + halfW) * d.width) ((centerY + halfH) * d.height) := by
  have hlen : i < (sliceBoxes prediction).length := by
    simpa [sliceBoxes] using hi
  have hz : i < (normalizeBoxes d (sliceBoxes prediction)).length := by
    simp [normalizeBoxes, List.length_zipWith]
    omega
  rw [List.getD_eq_getElem _ _ hz]
  simp only [normalizeBoxes] at hz ⊢
  rw [List.getElem_zipWith]
  rw [List.getD_eq_getElem _ _ hi, List.getD_eq_getElem _ _ ha]
  simp [sliceBoxes, normalizeBox]

/-- Point `j` of row `i` of the decoded landmark tensor, written out. -/
lemma decode_landmarks_getD_eq (d : HandDetector) (prediction : List (List ℝ))
    (i j : ℕ) (hi : i < prediction.length) (ha : i < d.anchors.length)
    (hj : j < 7) :
    ((_decode_landmarks d (sliceLandmarks prediction)).getD i []).getD j (0, 0) =
      let r := prediction.getD i []
      let a := d.anchors.getD i ⟨0, 0⟩
      ((r.getD (5 + 2 * j) 0 / d.width + a.x_center) * d.width,
       (r.getD (6 + 2 * j) 0 / d.height + a.y_center) * d.height) := by
  have hlen : i < (sliceLandmarks prediction).length := by
    simpa [sliceLandmarks] using hi
  have hz : i < (_decode_landmarks d (sliceLandmarks prediction)).length := by
    simp [_decode_landmarks, List.length_zipWith]
    omega
  rw [List.getD_eq_getElem _ _ hz]
  simp only [_decode_landmarks] at hz ⊢
  rw [List.getElem_zipWith]
  have hjlen : j < ((sliceLandmarks prediction).get ⟨i, hlen⟩).length := by
    simp [sliceLandmarks, hj]
  rw [List.getD_eq_getElem _ _ (by simpa using hjlen)]
  rw [List.getElem_map]
  rw [List.getD_eq_getElem _ _ hi, List.getD_eq_getElem _ _ ha]
  simp [sliceLandmarks, decodeLandmark]

/-- C1: for every raw prediction row, the decoded box is
`center = raw[1:3] / inputSize + anchor`,
`halfSize = raw[3:5] / (2 * inputSize)`,
`startPoint = (center - halfSize) * inputSize`,
`endPoint = (center + halfSize) * inputSize`,
with the anchor at the same row index and `inputSize = (width, height)`. -/
theorem normalizeBoxes_row (d : HandDetector) (prediction : List (List ℝ))
    (i : ℕ) (hi : i < prediction.length) (ha : i < d.anchors.length) :
    (normalizeBoxes d (sliceBoxes prediction)).getD i default =
      let r := prediction.getD i []
      let a := d.anchors.getD i ⟨0, 0⟩
      let centerX := r.getD 1 0 / d.width + a.x_center
      let centerY := r.getD 2 0 / d.height + a.y_center
      let halfW := r.getD 3 0 / (2 * d.width)
      let halfH := r.getD 4 0 / (2 * d.height)
      Box.mk ((centerX - halfW) * d.width) ((centerY - halfH) * d.height)
        ((centerX + halfW) * d.width) ((centerY + halfH) * d.height) :=
  normalizeBoxes_getD_eq d prediction i hi ha

/-- Witness for C1 at a concrete detector and prediction. -/
theorem normalizeBoxes_row_witness :
    (normalizeBoxes ⟨4, 2, 1/2, 1/2, [⟨1, 3⟩]⟩
        (sliceBoxes [[9, 8, 6, 16, 4, 0, 0]])).getD 0 default =
      Box.mk ((8 / 4 + 1 - 16 / (2*4)) * 4) ((6 / 2 + 3 - 4 / (2*2)) * 2)
        ((8 / 4 + 1 + 16 / (2*4)) * 4) ((6 / 2 + 3 + 4 / (2*2)) * 2) := by
  have h := normalizeBoxes_row ⟨4, 2, 1/2, 1/2, [⟨1, 3⟩]⟩
    [[9, 8, 6, 16, 4, 0, 0]] 0 (by simp) (by simp)
  simpa using h

/-- C2: for every raw prediction row, each of the 7 decoded landmark points
is `(raw_landmark / inputSize + anchor) * inputSize`, with the anchor at the
same row index — the same anchor-relative pattern as boxes, per point. -/
theorem decode_landmarks_row (d : HandDetector) (prediction : List (List ℝ))
    (i j : ℕ) (hi : i < prediction.length) (ha : i < d.anchors.length)
    (hj : j < 7) :
    ((_decode_landmarks d (sliceLandmarks prediction)).getD i []).getD j (0, 0) =
      let r := prediction.getD i []
      let a := d.anchors.getD i ⟨0, 0⟩
      ((r.getD (5 + 2 * j) 0 / d.width + a.x_center) * d.width,
       (r.getD (6 + 2 * j) 0 / d.height + a.y_center) * d.height) :=
  decode_landmarks_getD_eq d prediction i j hi ha hj

/-- Witness for C2 at a concrete detector and prediction. -/
theorem decode_landmarks_row_witness :
    ((_decode_landmarks ⟨4, 2, 1/2, 1/2, [⟨1, 3⟩]⟩
        (sliceLandmarks [[9, 8, 6, 16, 4, 11, 12, 13, 14]])).getD 0 []).getD 1
        (0, 0) =
      ((13 / 4 + 1) * 4, (14 / 2 + 3) * 2) := by
  have h := decode_landmarks_row ⟨4, 2, 1/2, 1/2, [⟨1, 3⟩]⟩
    [[9, 8, 6, 16, 4, 11, 12, 13, 14]] 0 1 (by simp) (by simp) (by omega)
  simpa using h

/-- `getD` of a list of zeros is zero at every position. -/
lemma getD_replicate_zero (n k : ℕ) : (List.replicate n (0 : ℝ)).getD k 0 = 0 := by
  induction n generalizing k with
  | zero => simp
  | succ n ih =>
      cases k with
      | zero => simp
      | succ k =>
          rw [List.replicate_succ, List.getD_cons_succ]
          exact ih k

/-- Every entry of an all-zero regression row (score `s`, then 18 zeros) past
column 0 is zero. -/
lemma getD_cons_replicate (s : ℝ) (k : ℕ) (hk : 1 ≤ k) :
    (s :: List.replicate 18 (0 : ℝ)).getD k 0 = 0 := by
  cases k with
  | zero => omega
  | succ k =>
      rw [List.getD_cons_succ]
      exact getD_replicate_zero 18 k

/-- C3: for every anchor `a` and every prediction row whose 4 box-regression
and 14 landmark-regression values are all zero, the decoded box has
`startPoint = endPoint = a * inputSize` and every one of the 7 decoded
landmark points equals `a * inputSize`. -/
theorem zero_regression_decodes_to_anchor (d : HandDetector)
    (prediction : List (List ℝ)) (i : ℕ) (s : ℝ)
    (hi : i < prediction.length) (ha : i < d.anchors.length)
    (hrow : prediction.getD i [] = s :: List.replicate 18 0) :
    (normalizeBoxes d (sliceBoxes prediction)).getD i default =
      Box.mk ((d.anchors.getD i ⟨0, 0⟩).x_center * d.width)
        ((d.anchors.getD i ⟨0, 0⟩).y_center * d.height)
        ((d.anchors.getD i ⟨0, 0⟩).x_center * d.width)
        ((d.anchors.getD i ⟨0, 0⟩).y_center * d.height) ∧
    ∀ j < 7,
      ((_decode_landmarks d (sliceLandmarks prediction)).getD i []).getD j (0, 0) =
        ((d.anchors.getD i ⟨0, 0⟩).x_center * d.width,
         (d.anchors.getD i ⟨0, 0⟩).y_center * d.height) := by
  constructor
  · rw [normalizeBoxes_getD_eq d prediction i hi ha]
    simp only [hrow]
    rw [getD_cons_replicate s 1 (by omega), getD_cons_replicate s 2 (by omega),
      getD_cons_replicate s 3 (by omega), getD_cons_replicate s 4 (by omega)]
    simp [Box.mk.injEq, zero_div]
  · intro j hj
    rw [decode_landmarks_getD_eq d prediction i j hi ha hj]
    simp only [hrow]
    rw [getD_cons_replicate s (5 + 2 * j) (by omega),
      getD_cons_replicate s (6 + 2 * j) (by omega)]
    simp [zero_div]

/-- Witness for C3 at a concrete detector and all-zero regression row. -/
theorem zero_regression_decodes_to_anchor_witness :
    (normalizeBoxes ⟨4, 2, 1/2, 1/2, [⟨1, 3⟩]⟩
        (sliceBoxes [(5 : ℝ) :: List.replicate 18 0])).getD 0 default =
      Box.mk (1 * 4) (3 * 2) (1 * 4) (3 * 2) ∧
    ((_decode_landmarks ⟨4, 2, 1/2, 1/2, [⟨1, 3⟩]⟩
        (sliceLandmarks [(5 : ℝ) :: List.replicate 18 0])).getD 0 []).getD 0
        (0, 0) = (1 * 4, 3 * 2) := by
  have h := zero_regression_decodes_to_anchor ⟨4, 2, 1/2, 1/2, [⟨1, 3⟩]⟩
    [(5 : ℝ) :: List.replicate 18 0] 0 5 (by simp) (by simp) (by simp)
  exact ⟨by simpa using h.1, by simpa using h.2 0 (by omega)⟩

/-! ## Non-maximum suppression lemmas -/

/-- Every candidate accepted by the greedy loop comes from the accumulator or
from the remaining candidate list. -/
lemma mem_nmsAccept {iouT : ℝ} {m : ℕ} {l acc : List Cand} {c : Cand}
    (hc : c ∈ nmsAccept iouT m acc l) : c ∈ acc ∨ c ∈ l := by
  induction l generalizing acc with
  | nil => simp only [nmsAccept] at hc; exact Or.inl hc
  | cons a l ih =>
      simp only [nmsAccept] at hc
      split_ifs at hc with h1 h2
      · exact Or.inl hc
      · rcases ih hc with h | h
        · rcases List.mem_append.mp h with h | h
          · exact Or.inl h
          · simp only [List.mem_singleton] at h
            exact Or.inr (by simp [h])
        · exact Or.inr (by simp [h])
      · rcases ih hc with h | h
        · exact Or.inl h
        · exact Or.inr (by simp [h])

/-- Every candidate surviving the score filter was in the input list and has
a score at or above the threshold. -/
lemma mem_keepAbove {t : ℝ} {l : List Cand} {c : Cand}
    (hc : c ∈ keepAbove t l) : c ∈ l ∧ t ≤ c.score := by
  induction l with
  | nil => simp [keepAbove] at hc
  | cons a l ih =>
      simp only [keepAbove] at hc
      split_ifs at hc with h
      · rcases List.mem_cons.mp hc with h' | h'
        · exact ⟨by simp [h'], h' ▸ h⟩
        · exact ⟨List.mem_cons_of_mem a (ih h').1, (ih h').2⟩
      · exact ⟨List.mem_cons_of_mem a (ih hc).1, (ih hc).2⟩

/-- Sorting by score is a permutation, so membership is unchanged. -/
lemma mem_sortByScoreDesc {l : List Cand} {c : Cand} :
    c ∈ sortByScoreDesc l ↔ c ∈ l :=
  (List.perm_insertionSort _ l).mem_iff

/-- Every candidate is a row index paired with the decoded box and score at
that index. -/
lemma mem_buildCandidates {boxes : List Box} {scores : List ℝ} {c : Cand}
    (hc : c ∈ buildCandidates boxes scores) :
    c.idx < boxes.length ∧ c.idx < scores.length ∧
      c.box = boxes.getD c.idx default ∧ c.score = scores.getD c.idx 0 := by
  simp only [buildCandidates, List.mem_map, List.mem_range] at hc
  obtain ⟨i, hi, rfl⟩ := hc
  exact ⟨lt_of_lt_of_le hi (min_le_left _ _),
    lt_of_lt_of_le hi (min_le_right _ _), rfl, rfl⟩

/-- Every index returned by non-maximum suppression is in range and has a
score at or above the score threshold. -/
lemma mem_nonMaxSuppression {boxes : List Box} {scores : List ℝ}
    {m : ℕ} {iouT t : ℝ} {i : ℕ}
    (hi : i ∈ nonMaxSuppression boxes scores m iouT t) :
    i < boxes.length ∧ i < scores.length ∧ t ≤ scores.getD i 0 := by
  simp only [nonMaxSuppression, List.mem_map] at hi
  obtain ⟨c, hc, rfl⟩ := hi
  rcases mem_nmsAccept hc with h | h
  · simp at h
  · have h' := mem_keepAbove (mem_sortByScoreDesc.mp h)
    have hb := mem_buildCandidates h'.1
    exact ⟨hb.1, hb.2.1, hb.2.2.2 ▸ h'.2⟩

/-- The score list entry at an in-range row index. -/
lemma predictionScores_getD {prediction : List (List ℝ)} {i : ℕ}
    (hi : i < prediction.length) :
    (predictionScores prediction).getD i 0 =
      sigmoid ((prediction.getD i []).getD 0 0) := by
  have hl : i < (predictionScores prediction).length := by
    simpa [predictionScores] using hi
  rw [List.getD_eq_getElem _ _ hl, List.getD_eq_getElem _ _ hi]
  simp [predictionScores]

/-- When every candidate scores below the threshold, the filter empties the
candidate list. -/
lemma keepAbove_eq_nil {t : ℝ} {l : List Cand}
    (h : ∀ c ∈ l, c.score < t) : keepAbove t l = [] := by
  induction l with
  | nil => rfl
  | cons a l ih =>
      have ha := h a (by simp)
      simp only [keepAbove, if_neg (not_le.mpr ha)]
      exact ih fun c hc => h c (List.mem_cons_of_mem a hc)

/-- C4: non-maximum suppression with the configured thresholds and at most
one requested box: for two candidates above the score threshold, only the
higher-scoring one survives — when their IoU is above the IoU threshold the
lower one is suppressed, and when it is below only one box was requested, so
in both cases exactly the highest-scoring index is returned. -/
theorem nms_two_candidates (b0 b1 : Box) (s0 s1 iouT scoreT : ℝ)
    (h0 : scoreT ≤ s0) (h1 : scoreT ≤ s1) :
    (s1 < s0 → nonMaxSuppression [b0, b1] [s0, s1] 1 iouT scoreT = [0]) ∧
    (s0 < s1 → nonMaxSuppression [b0, b1] [s0, s1] 1 iouT scoreT = [1]) := by
  constructor
  · intro h
    simp [nonMaxSuppression, buildCandidates, List.range_succ, keepAbove,
      h0, h1, sortByScoreDesc, List.insertionSort, List.orderedInsert,
      le_of_lt h, nmsAccept]
  · intro h
    simp [nonMaxSuppression, buildCandidates, List.range_succ, keepAbove,
      h0, h1, sortByScoreDesc, List.insertionSort, List.orderedInsert,
      not_le.mpr h, nmsAccept]

/-- Witness for C4 at concrete boxes, scores and thresholds. -/
theorem nms_two_candidates_witness :
    nonMaxSuppression [⟨0, 0, 2, 2⟩, ⟨1, 1, 3, 3⟩] [3/4, 1/2] 1 (1/2) (1/4) =
      [0] :=
  (nms_two_candidates ⟨0, 0, 2, 2⟩ ⟨1, 1, 3, 3⟩ (3/4) (1/2) (1/2) (1/4)
    (by norm_num) (by norm_num)).1 (by norm_num)

/-- A raw score of zero maps to confidence one half. -/
lemma sigmoid_zero : sigmoid 0 = 1/2 := by
  simp [sigmoid]
  norm_num [Real.exp_zero]

/-- Evaluation of `_getBoundingBox` on the concrete example: the single
anchor survives suppression and the decoded box is `(10, 10)`–`(20, 20)`
with all seven landmark points at the origin. -/
lemma getBoundingBox_ex :
    _getBoundingBox dEx predEx =
      some (Box.mk 10 10 20 20, List.replicate 7 ((0 : ℝ), (0 : ℝ))) := by
  have hsig : (1/4 : ℝ) ≤ sigmoid 0 := by rw [sigmoid_zero]; norm_num
  have hsig' : (4 : ℝ)⁻¹ ≤ sigmoid 0 := by rw [← one_div]; exact hsig
  have hscores : predictionScores predEx = [sigmoid 0] := by
    simp [predictionScores, predEx]
  have hboxes : normalizeBoxes dEx (sliceBoxes predEx) = [Box.mk 10 10 20 20] := by
    simp [normalizeBoxes, sliceBoxes, predEx, dEx, normalizeBox, Box.mk.injEq]
    norm_num
  have hnms : nonMaxSuppression [Box.mk 10 10 20 20] [sigmoid 0] 1 (3/10) (1/4)
      = [0] := by
    simp [nonMaxSuppression, buildCandidates, List.range_succ, keepAbove, hsig',
      sortByScoreDesc, List.insertionSort, List.orderedInsert, nmsAccept]
  have hlms : _decode_landmarks dEx (sliceLandmarks predEx) =
      [List.replicate 7 ((0 : ℝ), (0 : ℝ))] := by
    simp [_decode_landmarks, sliceLandmarks, predEx, dEx, decodeLandmark,
      List.range_succ, List.replicate]
  simp only [_getBoundingBox, hscores, hboxes]
  rw [show dEx.iouThreshold = 3/10 from rfl, show dEx.scoreThreshold = 1/4 from rfl]
  rw [hnms]
  simp [hlms]

/-- C5: any candidate row whose confidence `sigmoid(raw[0])` is below the
score threshold is never the selected detection — whenever `_getBoundingBox`
returns a result, its box and landmarks come from a row whose confidence is
at or above `scoreThreshold`. -/
theorem selected_row_above_threshold (d : HandDetector)
    (prediction : List (List ℝ)) (r : Box × List (ℝ × ℝ))
    (h : _getBoundingBox d prediction = some r) :
    ∃ i < prediction.length,
      d.scoreThreshold ≤ sigmoid ((prediction.getD i []).getD 0 0) ∧
      r.1 = (normalizeBoxes d (sliceBoxes prediction)).getD i default ∧
      r.2 = (_decode_landmarks d (sliceLandmarks prediction)).getD i [] := by
  simp only [_getBoundingBox] at h
  split at h
  · exact absurd h (by simp)
  · rename_i box_index rest heq
    obtain rfl := Option.some.inj h
    have hmem : box_index ∈
        nonMaxSuppression (normalizeBoxes d (sliceBoxes prediction))
          (predictionScores prediction) 1 d.iouThreshold d.scoreThreshold := by
      rw [heq]
      exact List.mem_cons_self _ _
    obtain ⟨hb, hs, ht⟩ := mem_nonMaxSuppression hmem
    have hlen : box_index < prediction.length := by
      simpa [predictionScores] using hs
    refine ⟨box_index, hlen, ?_, rfl, rfl⟩
    rw [← predictionScores_getD hlen]
    exact ht

/-- Witness for C5 on the concrete example detector and prediction. -/
theorem selected_row_above_threshold_witness :
    ∃ i < predEx.length,
      dEx.scoreThreshold ≤ sigmoid ((predEx.getD i []).getD 0 0) ∧
      (Box.mk 10 10 20 20, List.replicate 7 ((0 : ℝ), (0 : ℝ))).1 =
        (normalizeBoxes dEx (sliceBoxes predEx)).getD i default ∧
      (Box.mk 10 10 20 20, List.replicate 7 ((0 : ℝ), (0 : ℝ))).2 =
        (_decode_landmarks dEx (sliceLandmarks predEx)).getD i [] :=
  selected_row_above_threshold dEx predEx _ getBoundingBox_ex

/-- C6: when every row's confidence is below the score threshold, the detect
call returns the explicit absent result `none` (no exception, no zero box). -/
theorem no_detection_returns_none (d : HandDetector) (ow oh : ℝ)
    (prediction : List (List ℝ))
    (h : ∀ i < prediction.length,
      sigmoid ((prediction.getD i []).getD 0 0) < d.scoreThreshold) :
    getSingleBoundingBox d ow oh prediction = none := by
  have hk : keepAbove d.scoreThreshold
      (buildCandidates (normalizeBoxes d (sliceBoxes prediction))
        (predictionScores prediction)) = [] := by
    refine keepAbove_eq_nil fun c hc => ?_
    obtain ⟨hb, hs, hbox, hscore⟩ := mem_buildCandidates hc
    have hlen : c.idx < prediction.length := by
      simpa [predictionScores] using hs
    rw [hscore, predictionScores_getD hlen]
    exact h _ hlen
  have hnms : nonMaxSuppression (normalizeBoxes d (sliceBoxes prediction))
      (predictionScores prediction) 1 d.iouThreshold d.scoreThreshold = [] := by
    simp [nonMaxSuppression, hk, sortByScoreDesc, List.insertionSort, nmsAccept]
  have hgb : _getBoundingBox d prediction = none := by
    simp only [_getBoundingBox, hnms]
  simp [getSingleBoundingBox, hgb]

/-- Witness for C6: with score threshold 0.75 and a zero raw score
(`sigmoid 0 = 1/2`), the detect call returns `none`. -/
theorem no_detection_returns_none_witness :
    getSingleBoundingBox dEx3 5 7 predEx3 = none := by
  refine no_detection_returns_none dEx3 5 7 predEx3 fun i hi => ?_
  have hi' : i = 0 := by simpa [predEx3] using hi
  subst hi'
  have : ((predEx3.getD 0 []).getD 0 0) = 0 := by
    simp [predEx3, getD_replicate_zero]
  rw [this, sigmoid_zero]
  norm_num [dEx3]

/-- C7: the detection returned by `getSingleBoundingBox` is the selected
candidate's input-resolution box and landmarks multiplied component-wise by
the factors `(original_w / width, original_h / height)`. -/
theorem rescaled_by_factors (d : HandDetector) (ow oh : ℝ)
    (prediction : List (List ℝ)) (res : DetectionResult)
    (h : getSingleBoundingBox d ow oh prediction = some res) :
    ∃ box lms, _getBoundingBox d prediction = some (box, lms) ∧
      res.startPoint = (box.startX * (ow / d.width), box.startY * (oh / d.height)) ∧
      res.endPoint = (box.endX * (ow / d.width), box.endY * (oh / d.height)) ∧
      res.landmarks =
        lms.map fun p => (p.1 * (ow / d.width), p.2 * (oh / d.height)) := by
  simp only [getSingleBoundingBox] at h
  split at h
  · exact absurd h (by simp)
  · rename_i box landmarks heq
    obtain rfl := Option.some.inj h
    exact ⟨box, landmarks, heq, rfl, rfl, rfl⟩

/-- Evaluation of the full detect call on the concrete example with the
original image twice the model input size: the decoded `(10, 10)`–`(20, 20)`
box is rescaled by factors `(2, 2)` to `(20, 20)`–`(40, 40)`. -/
lemma getSingle_ex :
    getSingleBoundingBox dEx 256 256 predEx =
      some ⟨(20, 20), (40, 40), List.replicate 7 ((0 : ℝ), (0 : ℝ))⟩ := by
  simp only [getSingleBoundingBox, getBoundingBox_ex]
  simp [scaleBoxCoordinates, dEx, DetectionResult.mk.injEq, Prod.ext_iff,
    List.map_replicate]
  norm_num

/-- Witness for C7 on the concrete example: factors `(2, 2)` rescale the
decoded `(10, 10)`–`(20, 20)` box to `(20, 20)`–`(40, 40)`. -/
theorem rescaled_by_factors_witness :
    ∃ box lms, _getBoundingBox dEx predEx = some (box, lms) ∧
      (DetectionResult.mk (20, 20) (40, 40)
          (List.replicate 7 ((0 : ℝ), (0 : ℝ)))).startPoint =
        (box.startX * ((256 : ℝ) / dEx.width), box.startY * ((256 : ℝ) / dEx.height)) ∧
      (DetectionResult.mk (20, 20) (40, 40)
          (List.replicate 7 ((0 : ℝ), (0 : ℝ)))).endPoint =
        (box.endX * ((256 : ℝ) / dEx.width), box.endY * ((256 : ℝ) / dEx.height)) ∧
      (DetectionResult.mk (20, 20) (40, 40)
          (List.replicate 7 ((0 : ℝ), (0 : ℝ)))).landmarks =
        lms.map fun p =>
          (p.1 * ((256 : ℝ) / dEx.width), p.2 * ((256 : ℝ) / dEx.height)) :=
  rescaled_by_factors dEx 256 256 predEx _ getSingle_ex

/-- C9: the returned box and the returned landmark row are taken from the
same index of the decoded tensors — the single index chosen by non-maximum
suppression. -/
theorem box_landmarks_same_index (d : HandDetector)
    (prediction : List (List ℝ)) (r : Box × List (ℝ × ℝ))
    (h : _getBoundingBox d prediction = some r) :
    ∃ i rest,
      nonMaxSuppression (normalizeBoxes d (sliceBoxes prediction))
          (predictionScores prediction) 1 d.iouThreshold d.scoreThreshold =
        i :: rest ∧
      r.1 = (normalizeBoxes d (sliceBoxes prediction)).getD i default ∧
      r.2 = (_decode_landmarks d (sliceLandmarks prediction)).getD i [] := by
  simp only [_getBoundingBox] at h
  split at h
  · exact absurd h (by simp)
  · rename_i box_index rest heq
    obtain rfl := Option.some.inj h
    exact ⟨box_index, rest, heq, rfl, rfl⟩

/-- Witness for C9 on the concrete example. -/
theorem box_landmarks_same_index_witness :
    ∃ i rest,
      nonMaxSuppression (normalizeBoxes dEx (sliceBoxes predEx))
          (predictionScores predEx) 1 dEx.iouThreshold dEx.scoreThreshold =
        i :: rest ∧
      (Box.mk 10 10 20 20, List.replicate 7 ((0 : ℝ), (0 : ℝ))).1 =
        (normalizeBoxes dEx (sliceBoxes predEx)).getD i default ∧
      (Box.mk 10 10 20 20, List.replicate 7 ((0 : ℝ), (0 : ℝ))).2 =
        (_decode_landmarks dEx (sliceLandmarks predEx)).getD i [] :=
  box_landmarks_same_index dEx predEx _ getBoundingBox_ex

/-- C10: a detect call mutates no configuration field — the width, height,
IoU threshold, score threshold and anchor list after the call are those
before it, and a second call on the resulting detector state returns the
same result. -/
theorem detect_preserves_config (d : HandDetector) (ow oh : ℝ)
    (prediction : List (List ℝ)) :
    (getSingleBoundingBoxCall d ow oh prediction).2.width = d.width ∧
    (getSingleBoundingBoxCall d ow oh prediction).2.height = d.height ∧
    (getSingleBoundingBoxCall d ow oh prediction).2.iouThreshold = d.iouThreshold ∧
    (getSingleBoundingBoxCall d ow oh prediction).2.scoreThreshold = d.scoreThreshold ∧
    (getSingleBoundingBoxCall d ow oh prediction).2.anchors = d.anchors ∧
    (getSingleBoundingBoxCall ((getSingleBoundingBoxCall d ow oh prediction).2)
        ow oh prediction).1 =
      (getSingleBoundingBoxCall d ow oh prediction).1 :=
  ⟨rfl, rfl, rfl, rfl, rfl, rfl⟩

/-- C8 is violated by the code: in the tensor-lifetime model of
`getSingleBoundingBox`, the detection path disposes every intermediate
tensor, but the no-detection path returns without disposing the resized
`image` tensor (id 1), which stays live. -/
theorem image_leaks_on_no_detection :
    (getSingleBoundingBoxT true ⟨0, []⟩).2.live = [] ∧
    (getSingleBoundingBoxT false ⟨0, []⟩).2.live = [1] := by
  constructor <;> rfl
